import Mathlib

/-!
Shallow embedding of the knast container platform (FreeBSD OCI runtime and
image builder) for checking its natural-language specification.

Each definition is translated from the corresponding Rust item in the
repository; the file is organised by crate:

* `Knast.Ops` — `libknast/src/operations.rs` (OCI lifecycle operations)
* `Knast.Unpack` — `baustelle/src/unpacker.rs` (layer whiteout handling)
* `Knast.Fetch` — `baustelle/src/fetcher.rs` and
  `registratur/src/reqwest_ext.rs` (image fetch pipeline, digest checks)
* `Knast.UserParse` — `baustelle/src/runtime_config/user.rs`
* `Knast.Auth` — `registratur/src/v2/client.rs` and
  `registratur/src/v2/client/www_authenticate.rs`

I/O (file system, jails, the network, HTTP transports) is represented by
explicit parameters or oracles; machine integers that cannot overflow on
the reachable inputs are modelled as `Nat`/`Int`.
-/

namespace Knast

namespace Ops

/-- Embedding of `ProcessStatus` from `libknast/src/operations.rs` (strum lowercase). -/
inductive ProcessStatus
  | Created
  | Starting
  | Running
  | Stopped
deriving DecidableEq, Repr

/-- The strum `AsRefStr` lowercase rendering of a `ProcessStatus`. -/
def ProcessStatus.asStr : ProcessStatus → String
  | .Created => "created"
  | .Starting => "starting"
  | .Running => "running"
  | .Stopped => "stopped"

/-- Embedding of `OciStatus` from `libknast/src/operations.rs`.  `SystemTime` is
modelled as a `Nat` timestamp. -/
structure OciStatus where
  ociVersion : String
  status : ProcessStatus
  pid : Int
  jid : Int
  exitStatus : Option Int
  exitedAt : Nat
deriving DecidableEq, Repr

/-- Association-list lookup, modelling `StorageEngine::get` on one
collection (first binding for the key wins, as in a keyed store there is
at most one). -/
def assocGet {α : Type} (l : List (String × α)) (k : String) : Option α :=
  (l.find? (fun e => e.fst == k)).map Prod.snd

/-- Association-list insert/overwrite, modelling `StorageEngine::put`. -/
def assocPut {α : Type} (l : List (String × α)) (k : String) (v : α) :
    List (String × α) :=
  match l with
  | [] => [(k, v)]
  | (k', v') :: rest =>
    if k' == k then (k, v) :: rest else (k', v') :: assocPut rest k v

/-- The `container_processes` collection: process-id (key/exec-id) to
`OciStatus` record. -/
abbrev ProcessStore := List (String × OciStatus)

/-- Embedding of `OciOperations::process_id`: `<container-key>/<exec-id>`. -/
def processId (key execId : String) : String := key ++ "/" ++ execId

/-- Embedding of `OciOperations::get_state`.  The record is read from storage (the
`proc` argument); `jailExists` models whether `RunningJail::from_name`
succeeds for the container's key.  The Rust `match` on
`(jail, process.status)` maps `(Ok(_), Running)` to `Running`,
`(Err(_), Running)` to `Running`, and any other pair to the stored
status. -/
def getState (proc : OciStatus) (jailExists : Bool) : OciStatus :=
  { proc with
    status :=
      match jailExists, proc.status with
      | true, ProcessStatus.Running => ProcessStatus.Running
      | false, ProcessStatus.Running => ProcessStatus.Running
      | _, s => s }

/-- Outcome of `OciOperations::do_kill`: either a signal was delivered to
a pid inside the jail, or the call failed with an error message. -/
inductive KillOutcome
  | signalled (pid : Int) (signal : Int)
  | error (msg : String)
deriving DecidableEq, Repr

/-- Embedding of `OciOperations::do_kill`.  `jailExists` models
`RunningJail::from_name`, and `killOk` the result of the in-jail
`libc::kill` performed by the forked helper.  The second component is
the `container_processes` collection after the call (the function never
writes to it). -/
def doKill (store : ProcessStore) (key execId : String) (signal : Int)
    (jailExists : Bool) (killOk : Bool) : KillOutcome × ProcessStore :=
  match assocGet store (processId key execId) with
  | none =>
    (KillOutcome.error ("Process '" ++ execId ++ "' doesn't exist!"), store)
  | some state =>
    if state.status ≠ ProcessStatus.Running then
      (KillOutcome.error
        ("Cannot kill " ++ state.status.asStr ++ " container."), store)
    else if jailExists then
      if killOk then (KillOutcome.signalled state.pid signal, store)
      else (KillOutcome.error "kill failed", store)
    else (KillOutcome.error "Container is not running", store)

/-- Segments of a character list between occurrences of `=`; always
nonempty. -/
def splitEqChars : List Char → List (List Char)
  | [] => [[]]
  | c :: rest =>
    if c = '=' then [] :: splitEqChars rest
    else
      match splitEqChars rest with
      | [] => [[c]]
      | seg :: segs => (c :: seg) :: segs

/-- Rust's `x.split("=")` over a string: the list of segments between
occurrences of `=` (characters model the UTF-8 pattern split). -/
def splitEq (x : String) : List String :=
  (splitEqChars x.data).map String.mk

/-- One entry of the `process.env` decoding in `OciOperations::do_exec`:
`x.split("=")` followed by two `params.next()?`. -/
def decodeEnvEntry (x : String) : Option (String × String) :=
  match splitEq x with
  | a :: b :: _ => some (a, b)
  | _ => none

/-- Embedding of `Iterator::collect::<Option<Vec<_>>>`: all-or-nothing collection. -/
def collectOption {α : Type} : List (Option α) → Option (List α)
  | [] => some []
  | none :: _ => none
  | some x :: rest => (collectOption rest).map (fun xs => x :: xs)

/-- The environment computation of `OciOperations::do_exec`:
`process.env.and_then(|envs| envs.iter().map(..).collect()).unwrap_or_else(Vec::new)`. -/
def decodeEnvs (env : Option (List String)) : List (String × String) :=
  (env.bind (fun envs => collectOption (envs.map decodeEnvEntry))).getD []

end Ops

/-- A file-system path, as manipulated through `std::path::PathBuf`:
an absolute-flag plus the list of normal components. -/
structure RPath where
  absolute : Bool
  components : List String
deriving DecidableEq, Repr

/-- Embedding of `PathBuf::join`: an absolute right operand replaces the left one,
otherwise the components are appended. -/
def RPath.join (a b : RPath) : RPath :=
  if b.absolute then b
  else { absolute := a.absolute, components := a.components ++ b.components }

/-- Embedding of `Root` from `baustelle/src/runtime_config.rs`. -/
structure Root where
  path : RPath
  readonly : Option Bool
deriving DecidableEq, Repr

/-- Embedding of `Mount` from `baustelle/src/runtime_config.rs`. -/
structure Mount where
  destination : String
  source : Option String
  options : Option (List String)
  kind : Option String
deriving DecidableEq, Repr

/-- Embedding of `ConsoleSize` from `baustelle/src/runtime_config.rs`. -/
structure ConsoleSize where
  height : Nat
  width : Nat
deriving DecidableEq, Repr

/-- Embedding of `Rlimit` from `baustelle/src/runtime_config.rs`. -/
structure Rlimit where
  kind : String
  soft : Nat
  hard : Nat
deriving DecidableEq, Repr

/-- Embedding of `User` from `baustelle/src/runtime_config.rs`. -/
structure User where
  uid : Nat
  gid : Nat
  umask : Option Nat
  additionalGids : Option (List Nat)
deriving DecidableEq, Repr

/-- Embedding of `Process` from `baustelle/src/runtime_config.rs`. -/
structure RcProcess where
  terminal : Option Bool
  consoleSize : Option ConsoleSize
  cwd : String
  env : Option (List String)
  args : Option (List String)
  rlimits : Option (List Rlimit)
  user : User
  hostname : Option String
deriving DecidableEq, Repr

/-- Embedding of `Hook` from `baustelle/src/runtime_config.rs`. -/
structure Hook where
  path : String
  args : Option (List String)
  env : Option (List String)
  timeout : Option Nat
deriving DecidableEq, Repr

/-- Embedding of `Hooks` from `baustelle/src/runtime_config.rs`. -/
structure Hooks where
  prestart : Option (List Hook)
  createRuntime : Option (List Hook)
  createContainer : Option (List Hook)
  startContainer : Option (List Hook)
  poststart : Option (List Hook)
  poststop : Option (List Hook)
deriving DecidableEq, Repr

/-- Embedding of `RuntimeConfig` from `baustelle/src/runtime_config.rs`; the
annotation map is modelled as an association list. -/
structure RuntimeConfig where
  ociVersion : String
  root : Option Root
  mounts : Option (List Mount)
  process : Option RcProcess
  hooks : Option Hooks
  annotationEntries : Option (List (String × String))
deriving DecidableEq, Repr

namespace Ops

/-- The two collections of the key/value store that
`libknast/src/operations.rs` touches through typed accessors
(`container_config`, `container_processes`); the network-state
collection written by `network::setup` is outside this model. -/
structure KnastState where
  containerConfig : List (String × RuntimeConfig)
  containerProcesses : ProcessStore
deriving DecidableEq, Repr

/-- Embedding of `OciOperations::create`.  `configFile` is the result of opening and
parsing `<bundle>/config.json` (`none` models an open/parse failure);
`mountsOk`, `jailOk` and `networkOk` model the outcomes of the mount
loop, `StoppedJail::start` and `network::setup`.  The returned state
reflects that the config is persisted before those steps run, so it
stays persisted even when a later step fails. -/
def create (st : KnastState) (key : String) (bundle : RPath)
    (configFile : Option RuntimeConfig)
    (mountsOk jailOk networkOk : Bool) :
    Except String Unit × KnastState :=
  if (assocGet st.containerProcesses (processId key "")).isSome then
    (Except.error ("Container '" ++ key ++ "' already exists!"), st)
  else
    match configFile with
    | none => (Except.error "Failed to read config.json", st)
    | some config =>
      match config.root with
      | none => (Except.error "Runtime config: root field must be set", st)
      | some root =>
        let rootfsPath := bundle.join root.path
        let config' :=
          { config with root := some { path := rootfsPath, readonly := none } }
        let st' :=
          { st with containerConfig := assocPut st.containerConfig key config' }
        if ¬ mountsOk then (Except.error "Mount failed", st')
        else if ¬ jailOk then (Except.error "Failed to start the jail", st')
        else if ¬ networkOk then (Except.error "Network setup failed", st')
        else (Except.ok (), st')

end Ops

namespace Unpack

/-- An archive entry's pathname, as the list of its components
(`PathBuf` split at separators).  The file name is the last component,
the parent path is everything before it. -/
abbrev EntryPath := List String

/-- Rust's `str::starts_with` over the characters of a string. -/
def strStartsWith (s pre : String) : Bool :=
  pre.data.isPrefixOf s.data

/-- A file-system mutation performed by `Unpacker::handle_whiteouts`. -/
inductive FsAction
  | removeDirAll (path : EntryPath)
  | removeFile (path : EntryPath)
deriving DecidableEq, Repr

/-- The body of the per-entry closure of `Unpacker::handle_whiteouts`:
extract the file name and the parent, join both under the destination,
and dispatch on the file name (`.wh..wh..opq` removes the parent
directory tree; any other `.wh.`-prefixed name removes the joined entry
path itself).  Returns the actions performed. -/
def whiteoutEntryActions (destination : EntryPath) (entry : EntryPath) :
    Except String (List FsAction) :=
  match entry.getLast? with
  | none =>
    Except.error "Failed to extract filename from the archive header"
  | some filename =>
    let parent := destination ++ entry.dropLast
    let joined := destination ++ entry
    if filename = ".wh..wh..opq" then
      Except.ok [FsAction.removeDirAll parent]
    else if strStartsWith filename ".wh." then
      Except.ok [FsAction.removeFile joined]
    else Except.ok []

/-- Embedding of `Unpacker::handle_whiteouts`: the whiteout pass over all entries of
a layer archive, in order, short-circuiting on the first failure. -/
def handleWhiteouts (destination : EntryPath) :
    List EntryPath → Except String (List FsAction)
  | [] => Except.ok []
  | entry :: rest =>
    match whiteoutEntryActions destination entry with
    | Except.error e => Except.error e
    | Except.ok acts =>
      match handleWhiteouts destination rest with
      | Except.error e => Except.error e
      | Except.ok acts' => Except.ok (acts ++ acts')

/-- The ignore predicate `Unpacker::unpack_layer` passes to
`Archive::extract`: skip every entry whose file name starts with
`.wh.`. -/
def extractIgnores (entry : EntryPath) : Bool :=
  match entry.getLast? with
  | none => false
  | some name => strStartsWith name ".wh."

/-- The set of entries `Archive::extract` materialises for a layer:
all entries except the ignored ones. -/
def extractedEntries (entries : List EntryPath) : List EntryPath :=
  entries.filter (fun e => ¬ extractIgnores e)

end Unpack

/-- Outcome of a Rust computation that may also panic (`unwrap` on
`None`), which an `anyhow::Result` cannot represent. -/
inductive RustResult (α : Type)
  | ok (value : α)
  | err (msg : String)
  | panicked
deriving DecidableEq, Repr

namespace Fetch

open Ops (assocGet assocPut)

/-- Embedding of `Descriptor` from `registratur/src/v2/domain/descriptor.rs`. -/
structure Descriptor where
  mediaType : String
  digest : String
  size : Nat
  urls : Option (List String)
deriving DecidableEq, Repr

/-- Embedding of `Platform` from `registratur/src/v2/domain/manifest_index.rs`. -/
structure Platform where
  architecture : String
  os : String
  osVersion : Option String
  osFeatures : Option (List String)
  variant : Option String
deriving DecidableEq, Repr

/-- Embedding of `Manifest` (the index entry) from
`registratur/src/v2/domain/manifest_index.rs`: a flattened descriptor
plus an optional platform. -/
structure IndexEntry where
  descriptor : Descriptor
  platform : Option Platform
deriving DecidableEq, Repr

/-- Embedding of `ManifestIndex` from `registratur/src/v2/domain/manifest_index.rs`. -/
structure ManifestIndex where
  schemaVersion : Nat
  manifests : List IndexEntry
deriving DecidableEq, Repr

/-- Embedding of `Manifest` from `registratur/src/v2/domain/manifest.rs`. -/
structure Manifest where
  schemaVersion : Nat
  mediaType : Option String
  config : Descriptor
  layers : List Descriptor
deriving DecidableEq, Repr

/-- Embedding of `Config` from `registratur/src/v2/domain/config.rs`, with the
fields the fetch pipeline stores; maps become association lists and
timestamps become strings. -/
structure ImageConfig where
  created : Option String
  author : Option String
  architecture : String
  os : String
deriving DecidableEq, Repr

/-- A stored blob: the `blobs` collection holds manifests, image
configs and raw layer bytes (bytes are `Nat`s below 256). -/
inductive Blob
  | layer (bytes : List Nat)
  | manifest (m : Manifest)
  | config (c : ImageConfig)
deriving DecidableEq, Repr

/-- The two collections `Fetcher` touches: `images`
(cache key to digest) and `blobs` (digest to blob). -/
structure FetchState where
  images : List (String × String)
  blobs : List (String × Blob)
deriving DecidableEq, Repr

/-- Embedding of `ReqwestResponseExt::read` from `registratur/src/reqwest_ext.rs`.
The response body arrives as `chunks`; the fold accumulates them into
one buffer (reporting progress, which carries no data).  `sha256`
computes the digest of the accumulated buffer and `hexEnc` renders it;
both are parameters of the embedding.  `digest.unwrap()` panics when no
digest was supplied; otherwise its first seven bytes (`sha256:`) are
dropped and the remainder compared against the rendered hash. -/
def readResponse (sha256 : List Nat → List Nat) (hexEnc : List Nat → String)
    (chunks : List (List Nat)) (digest : Option String) :
    RustResult (List Nat) :=
  let result := chunks.foldl (fun agg bytes => agg ++ bytes) []
  match digest with
  | none => RustResult.panicked
  | some d =>
    if String.mk (d.data.drop 7) ≠ hexEnc (sha256 result) then
      RustResult.err "Content hash mismatch."
    else RustResult.ok result

/-- Embedding of `Fetcher::fetch_layer`.  `transport` yields the chunked body the
registry serves for a digest (`Except.error` models a failed request).
Returns the outcome, the updated state, and the number of registry
pulls made.  A digest already in `blobs` short-circuits (the `Cached`
progress update carries no data); otherwise `Layer::pull` reads and
digest-checks the body, and only a successful result is `put` into
`blobs`. -/
def fetchLayer (sha256 : List Nat → List Nat) (hexEnc : List Nat → String)
    (transport : String → Except String (List (List Nat)))
    (st : FetchState) (digest : String) :
    RustResult Unit × FetchState × Nat :=
  if (assocGet st.blobs digest).isSome then
    (RustResult.ok (), st, 0)
  else
    match transport digest with
    | Except.error e =>
      (RustResult.err ("Failed to fetch layer " ++ digest ++ ": " ++ e),
        st, 1)
    | Except.ok chunks =>
      match readResponse sha256 hexEnc chunks (some digest) with
      | RustResult.ok item =>
        (RustResult.ok (),
          { st with blobs := assocPut st.blobs digest (Blob.layer item) }, 1)
      | RustResult.err e =>
        (RustResult.err ("Failed to fetch layer " ++ digest ++ ": " ++ e),
          st, 1)
      | RustResult.panicked => (RustResult.panicked, st, 1)

/-- Embedding of `Fetcher::fetch_manifest`: `Manifest::pull` (request, digest-checked
read, JSON decode modelled by `decode`) followed by `put` of the
decoded manifest into `blobs` on success. -/
def fetchManifest (sha256 : List Nat → List Nat) (hexEnc : List Nat → String)
    (transport : String → Except String (List (List Nat)))
    (decode : List Nat → Except String Manifest)
    (st : FetchState) (digest : String) :
    RustResult Manifest × FetchState × Nat :=
  match transport digest with
  | Except.error e =>
    (RustResult.err ("Failed to fetch manifest " ++ digest ++ ": " ++ e),
      st, 1)
  | Except.ok chunks =>
    match readResponse sha256 hexEnc chunks (some digest) with
    | RustResult.err e =>
      (RustResult.err ("Failed to fetch manifest " ++ digest ++ ": " ++ e),
        st, 1)
    | RustResult.panicked => (RustResult.panicked, st, 1)
    | RustResult.ok bytes =>
      match decode bytes with
      | Except.error e =>
        (RustResult.err
          ("Failed to fetch manifest " ++ digest ++ ": " ++ e), st, 1)
      | Except.ok m =>
        (RustResult.ok m,
          { st with blobs := assocPut st.blobs digest (Blob.manifest m) }, 1)

/-- Embedding of `Fetcher::fetch_config`: `Config::pull` (request, digest-checked
read, JSON decode) followed by `put` of the decoded config into
`blobs` on success. -/
def fetchConfig (sha256 : List Nat → List Nat) (hexEnc : List Nat → String)
    (transport : String → Except String (List (List Nat)))
    (decode : List Nat → Except String ImageConfig)
    (st : FetchState) (digest : String) :
    RustResult Unit × FetchState × Nat :=
  match transport digest with
  | Except.error e =>
    (RustResult.err ("Failed to fetch image config " ++ digest ++ ": " ++ e),
      st, 1)
  | Except.ok chunks =>
    match readResponse sha256 hexEnc chunks (some digest) with
    | RustResult.err e =>
      (RustResult.err
        ("Failed to fetch image config " ++ digest ++ ": " ++ e), st, 1)
    | RustResult.panicked => (RustResult.panicked, st, 1)
    | RustResult.ok bytes =>
      match decode bytes with
      | Except.error e =>
        (RustResult.err
          ("Failed to fetch image config " ++ digest ++ ": " ++ e), st, 1)
      | Except.ok c =>
        (RustResult.ok (),
          { st with blobs := assocPut st.blobs digest (Blob.config c) }, 1)

/-- The predicate of the `find` in `Fetcher::resolve_manifest_digest`:
a descriptor with a platform matches when the platform architecture
equals the target and the platform os is one of the target os values;
a descriptor without a platform never matches. -/
def entryMatches (architecture : String) (os : List String)
    (m : IndexEntry) : Bool :=
  match m.platform with
  | some p => architecture == p.architecture && os.contains p.os
  | none => false

/-- Embedding of `Fetcher::resolve_manifest_digest`, after the manifest index has
been pulled: the first matching entry's digest, or the
no-matching-platform error. -/
def resolveManifestDigest (architecture : String) (os : List String)
    (manifests : List IndexEntry) : Except String String :=
  match manifests.find? (entryMatches architecture os) with
  | some m => Except.ok m.descriptor.digest
  | none =>
    Except.error
      ("Could not find the appropriate manifest for: " ++ architecture)

/-- Embedding of `normalize_image_name` from `baustelle/src/fetcher.rs`. -/
def normalizeImageName (image : String) : String :=
  (if image.data.contains '/' then "" else "library/") ++ image

/-- The cache key `"<image_name>:<tag>"` computed by `Fetcher::fetch`. -/
def cacheKey (image tag : String) : String :=
  normalizeImageName image ++ ":" ++ tag

/-- The layer loop of `Fetcher::fetch`.  In the source the layer pulls
run concurrently and are joined with all-must-succeed semantics; the
embedding threads them in manifest order, stopping at the first
failure. -/
def fetchLayers (sha256 : List Nat → List Nat) (hexEnc : List Nat → String)
    (transport : String → Except String (List (List Nat)))
    (st : FetchState) : List Descriptor →
    RustResult Unit × FetchState × Nat
  | [] => (RustResult.ok (), st, 0)
  | d :: rest =>
    match fetchLayer sha256 hexEnc transport st d.digest with
    | (RustResult.ok _, st', n) =>
      match fetchLayers sha256 hexEnc transport st' rest with
      | (r, st'', n') => (r, st'', n + n')
    | (RustResult.err e, st', n) => (RustResult.err e, st', n)
    | (RustResult.panicked, st', n) => (RustResult.panicked, st', n)

/-- Embedding of `Fetcher::fetch`.  `indexTransport` models `ManifestIndex::pull`
(one request, no digest verification on an index addressed by tag);
the other transports and decoders model the digest-addressed pulls.
Returns the outcome, the final state, and the number of registry pulls
performed.  On a cache hit in `images` the stored digest is returned
with no requests and no writes; otherwise the index is resolved, the
manifest pulled and stored, then the config and every layer, and only
then is the cache key written (`flush` does not change the store). -/
def fetch (sha256 : List Nat → List Nat) (hexEnc : List Nat → String)
    (indexTransport : Except String ManifestIndex)
    (transportM transportC transportL :
      String → Except String (List (List Nat)))
    (decodeM : List Nat → Except String Manifest)
    (decodeC : List Nat → Except String ImageConfig)
    (architecture : String) (os : List String)
    (st : FetchState) (image tag : String) :
    RustResult String × FetchState × Nat :=
  let key := cacheKey image tag
  match assocGet st.images key with
  | some digest => (RustResult.ok digest, st, 0)
  | none =>
    match indexTransport with
    | Except.error e =>
      (RustResult.err ("Failed to fetch manifest index: " ++ e), st, 1)
    | Except.ok index =>
      match resolveManifestDigest architecture os index.manifests with
      | Except.error e => (RustResult.err e, st, 1)
      | Except.ok digest =>
        match fetchManifest sha256 hexEnc transportM decodeM st digest with
        | (RustResult.err e, st1, n1) => (RustResult.err e, st1, 1 + n1)
        | (RustResult.panicked, st1, n1) =>
          (RustResult.panicked, st1, 1 + n1)
        | (RustResult.ok manifest, st1, n1) =>
          match fetchConfig sha256 hexEnc transportC decodeC st1
              manifest.config.digest with
          | (RustResult.err e, st2, n2) =>
            (RustResult.err e, st2, 1 + n1 + n2)
          | (RustResult.panicked, st2, n2) =>
            (RustResult.panicked, st2, 1 + n1 + n2)
          | (RustResult.ok _, st2, n2) =>
            match fetchLayers sha256 hexEnc transportL st2
                manifest.layers with
            | (RustResult.err e, st3, n3) =>
              (RustResult.err e, st3, 1 + n1 + n2 + n3)
            | (RustResult.panicked, st3, n3) =>
              (RustResult.panicked, st3, 1 + n1 + n2 + n3)
            | (RustResult.ok _, st3, n3) =>
              let st4 := { st3 with images := assocPut st3.images key digest }
              (RustResult.ok digest, st4, 1 + n1 + n2 + n3)

end Fetch

namespace UserParse

/-- nom's `alphanumeric1` over the input characters: consumes the
longest nonempty alphanumeric prefix, returning `(rest, consumed)`.
(Rust's `char::is_alphanumeric` is Unicode-aware; the inputs reachable
from user strings in this development are ASCII.) -/
def alphanumeric1 (s : List Char) : Option (List Char × List Char) :=
  let tok := s.takeWhile Char.isAlphanum
  if tok.isEmpty then none
  else some (s.dropWhile Char.isAlphanum, tok)

/-- Decimal value of a digit token. -/
def digitsVal (tok : List Char) : Nat :=
  tok.foldl (fun acc c => acc * 10 + (c.toNat - 48)) 0

/-- Embedding of `u32::from_str` on an alphanumeric token: succeeds exactly on
nonempty all-digit tokens whose value fits in 32 bits.  (A leading `+`
is also accepted by `from_str` but cannot occur in an alphanumeric
token.) -/
def u32FromStr (tok : List Char) : Option Nat :=
  if tok ≠ [] ∧ tok.all Char.isDigit ∧ digitsVal tok < 2 ^ 32 then
    some (digitsVal tok)
  else none

/-- Embedding of `identifier::<u32>` from `baustelle/src/runtime_config/user.rs`:
`map_res(alphanumeric1, u32::from_str)`. -/
def identU32 (s : List Char) : Option (List Char × Nat) :=
  match alphanumeric1 s with
  | none => none
  | some (rest, tok) =>
    match u32FromStr tok with
    | none => none
    | some n => some (rest, n)

/-- Embedding of `identifier::<String>`: `String::from_str` never fails, so this is
`alphanumeric1` itself. -/
def identStr (s : List Char) : Option (List Char × List Char) :=
  alphanumeric1 s

/-- nom's `tag(":")`. -/
def tagColon (s : List Char) : Option (List Char × Unit) :=
  match s with
  | ':' :: rest => some (rest, ())
  | _ => none

/-- Embedding of `separated_pair(identifier, tag(":"), identifier)` from
`baustelle/src/runtime_config/user.rs`, generic in the two component
parsers. -/
def separatedPair {α β : Type}
    (pa : List Char → Option (List Char × α))
    (pb : List Char → Option (List Char × β))
    (s : List Char) : Option (List Char × (α × β)) :=
  match pa s with
  | none => none
  | some (s1, a) =>
    match tagColon s1 with
    | none => none
    | some (s2, _) =>
      match pb s2 with
      | none => none
      | some (s3, b) => some (s3, (a, b))

/-- One parsed line of `/etc/passwd`
(`baustelle/src/runtime_config/user/unix_user.rs`). -/
structure EtcPasswdEntry where
  username : String
  uid : Nat
  gid : Nat
deriving DecidableEq, Repr

/-- One parsed line of `/etc/group`. -/
structure EtcGroupEntry where
  groupname : String
  gid : Nat
deriving DecidableEq, Repr

/-- The container root file system as the user-resolution code sees it:
the parsed lines of `etc/passwd` and `etc/group` (a `none` line models
an entry `EtcConf` fails to decode, which `find_entry` skips). -/
structure Rootfs where
  passwd : List (Option EtcPasswdEntry)
  group : List (Option EtcGroupEntry)

/-- Embedding of `find_entry`: first decodable entry satisfying the predicate. -/
def findEntry {α : Type} (p : α → Bool) :
    List (Option α) → Except String α
  | [] => Except.error "Entry was not found"
  | none :: rest => findEntry p rest
  | some item :: rest =>
    if p item then Except.ok item else findEntry p rest

/-- Embedding of `find_group_by_name`. -/
def findGroupByName (rootfs : Rootfs) (groupname : List Char) :
    Except String EtcGroupEntry :=
  findEntry (fun g => g.groupname == String.mk groupname) rootfs.group

/-- Embedding of `find_user_by_name`. -/
def findUserByName (rootfs : Rootfs) (username : List Char) :
    Except String EtcPasswdEntry :=
  findEntry (fun u => u.username == String.mk username) rootfs.passwd

/-- Embedding of `find_user_by_uid`. -/
def findUserByUid (rootfs : Rootfs) (uid : Nat) :
    Except String EtcPasswdEntry :=
  findEntry (fun u => u.uid == uid) rootfs.passwd

/-- The `uid_gid` alternative: `pair::<u32, u32>`. -/
def uidGidAlt (s : List Char) : Option (List Char × (Nat × Nat)) :=
  separatedPair identU32 identU32 s

/-- The `uid_group` alternative: a `map_res` whose closure resolves the
group name in the rootfs; a failed resolution fails the parser. -/
def uidGroupAlt (rootfs : Rootfs) (s : List Char) :
    Option (List Char × (Nat × Nat)) :=
  match separatedPair identU32 identStr s with
  | none => none
  | some (rest, (uid, group)) =>
    match findGroupByName rootfs group with
    | Except.error _ => none
    | Except.ok g => some (rest, (uid, g.gid))

/-- The `user_group` alternative. -/
def userGroupAlt (rootfs : Rootfs) (s : List Char) :
    Option (List Char × (Nat × Nat)) :=
  match separatedPair identStr identStr s with
  | none => none
  | some (rest, (username, group)) =>
    match findUserByName rootfs username with
    | Except.error _ => none
    | Except.ok u =>
      match findGroupByName rootfs group with
      | Except.error _ => none
      | Except.ok g => some (rest, (u.uid, g.gid))

/-- The `user_gid` alternative. -/
def userGidAlt (rootfs : Rootfs) (s : List Char) :
    Option (List Char × (Nat × Nat)) :=
  match separatedPair identStr identU32 s with
  | none => none
  | some (rest, (username, gid)) =>
    match findUserByName rootfs username with
    | Except.error _ => none
    | Except.ok u => some (rest, (u.uid, gid))

/-- The `username` alternative. -/
def usernameAlt (rootfs : Rootfs) (s : List Char) :
    Option (List Char × (Nat × Nat)) :=
  match identStr s with
  | none => none
  | some (rest, username) =>
    match findUserByName rootfs username with
    | Except.error _ => none
    | Except.ok u => some (rest, (u.uid, u.gid))

/-- The `uid` alternative. -/
def uidAlt (rootfs : Rootfs) (s : List Char) :
    Option (List Char × (Nat × Nat)) :=
  match identU32 s with
  | none => none
  | some (rest, uid) =>
    match findUserByUid rootfs uid with
    | Except.error _ => none
    | Except.ok u => some (rest, (u.uid, u.gid))

/-- Embedding of `alt((uid_gid, uid_group, user_group, user_gid, username, uid))`:
the alternatives in source order, first success wins. -/
def userAlternatives (rootfs : Rootfs) (s : List Char) :
    Option (List Char × (Nat × Nat)) :=
  match uidGidAlt s with
  | some r => some r
  | none =>
    match uidGroupAlt rootfs s with
    | some r => some r
    | none =>
      match userGroupAlt rootfs s with
      | some r => some r
      | none =>
        match userGidAlt rootfs s with
        | some r => some r
        | none =>
          match usernameAlt rootfs s with
          | some r => some r
          | none => uidAlt rootfs s

/-- Embedding of `parse` from `baustelle/src/runtime_config/user.rs`: run the
alternatives over the user string and return the resolved pair
(trailing unconsumed input is not rejected, as in the source). -/
def parseUser (rootfs : Rootfs) (user : String) : Except String (Nat × Nat) :=
  match userAlternatives rootfs user.data with
  | some (_, res) => Except.ok res
  | none => Except.error "Failed to parse user config string"

end UserParse

namespace Auth

/-- nom's `take_while(|c| c != QUOTE)` from
`registratur/src/v2/client/www_authenticate.rs`: split the input at the
first double quote, returning `(consumed, rest)`. -/
def takeUntilQuote (s : List Char) : List Char × List Char :=
  (s.takeWhile (fun c => c ≠ '"'), s.dropWhile (fun c => c ≠ '"'))

/-- Embedding of `term`: `delimited(preceded(string, char(QUOTE)), string,
char(QUOTE))` — skip to a double quote, consume it, take the quoted
value, and consume the closing quote. -/
def term (s : List Char) : Option (List Char × List Char) :=
  match (takeUntilQuote s).2 with
  | '"' :: rest2 =>
    let (val, rest3) := takeUntilQuote rest2
    match rest3 with
    | '"' :: rest4 => some (rest4, val)
    | _ => none
  | _ => none

/-- The parsed `WWW-Authenticate` header. -/
structure Challenge where
  realm : List Char
  service : List Char
  scope : List Char
deriving DecidableEq, Repr

/-- Embedding of `WwwAuthenticate::parse`: `tuple((term, term, term))`, the three
quoted values taken positionally. -/
def wwwAuthenticate (input : List Char) : Except String Challenge :=
  match term input with
  | none => Except.error "Failed to parse WWW-Authenticate header"
  | some (r1, realm) =>
    match term r1 with
    | none => Except.error "Failed to parse WWW-Authenticate header"
    | some (r2, service) =>
      match term r2 with
      | none => Except.error "Failed to parse WWW-Authenticate header"
      | some (_, scope) =>
        Except.ok { realm := realm, service := service, scope := scope }

/-- The challenge-handling prefix of `Client::authenticate`: the HEAD
response's `www-authenticate` header value (or `none` when the header
is absent) through `headers.get("www-authenticate").unwrap().to_str()`
and `WwwAuthenticate::parse`.  A missing header is a panic, not an
error. -/
def authenticateChallenge (header : Option (List Char)) :
    RustResult Challenge :=
  match header with
  | none => RustResult.panicked
  | some h =>
    match wwwAuthenticate h with
    | Except.error e => RustResult.err e
    | Except.ok c => RustResult.ok c

end Auth

/-! ## Helper lemmas shared by several claims -/

/-- Looking a key up right after `put` yields the stored value. -/
theorem assocGet_assocPut {α : Type} (l : List (String × α)) (k : String)
    (v : α) : Ops.assocGet (Ops.assocPut l k v) k = some v := by
  induction l with
  | nil => simp [Ops.assocGet, Ops.assocPut]
  | cons hd tl ih =>
    obtain ⟨k', v'⟩ := hd
    by_cases h : k' = k
    · simp [Ops.assocGet, Ops.assocPut, h]
    · simpa [Ops.assocGet, Ops.assocPut, h] using ih

/-! ## Claim theorems -/

/-- C1: the code keeps a stored `Running` status in the returned
snapshot even when no jail with the container's name exists: at a
`Running` record with the jail gone, `get_state` still reports
`Running` (the `(Err(_), Running)` arm of the match also yields
`Running`), so the snapshot is never downgraded to `Stopped`. -/
theorem getState_running_jail_gone_stays_running :
    (Ops.getState
      { ociVersion := "1.0.2-dev-freebsd",
        status := Ops.ProcessStatus.Running,
        pid := 42, jid := 7, exitStatus := none, exitedAt := 0 }
      false).status = Ops.ProcessStatus.Running ∧
    (Ops.getState
      { ociVersion := "1.0.2-dev-freebsd",
        status := Ops.ProcessStatus.Running,
        pid := 42, jid := 7, exitStatus := none, exitedAt := 0 }
      false).status ≠ Ops.ProcessStatus.Stopped := by
  exact ⟨rfl, by decide⟩

/-- C2: on a layer containing the whiteout entry `dir/.wh.file`,
`handle_whiteouts` removes the joined marker path
`<dest>/dir/.wh.file` itself, not the whiteout target
`<dest>/dir/file`; the target path appears in no removal action. -/
theorem handleWhiteouts_removes_marker_not_target :
    Unpack.handleWhiteouts ["dest"] [["dir", ".wh.file"]] =
      Except.ok [Unpack.FsAction.removeFile ["dest", "dir", ".wh.file"]] ∧
    Unpack.FsAction.removeFile ["dest", "dir", "file"] ∉
      [Unpack.FsAction.removeFile ["dest", "dir", ".wh.file"]] := by
  exact ⟨rfl, by decide⟩

/-- C3 counterexample: the claim fails on the code in both respects.
An entry with no `=` is not dropped individually — it collapses the
whole decoded environment to `[]` (the `collect` into `Option` is
all-or-nothing) — and for an entry with two `=` the value is the
segment between the first and second `=`, not everything after the
first. -/
theorem decodeEnvs_counterexample :
    Ops.decodeEnvs (some ["FOO", "A=B"]) = [] ∧
    Ops.decodeEnvs (some ["FOO", "A=B"]) ≠ [("A", "B")] ∧
    Ops.decodeEnvs (some ["A=B=C"]) = [("A", "B")] ∧
    Ops.decodeEnvs (some ["A=B=C"]) ≠ [("A", "B=C")] := by
  refine ⟨by decide, by decide, by decide, by decide⟩

/-- The per-entry pair the decoded environment contains when every
entry has at least one `=`: the segments before the first `=` and
between the first and second `=`. -/
def envPairSpec (x : String) : String × String :=
  ((Ops.splitEq x).headD "", ((Ops.splitEq x).drop 1).headD "")

/-- Lemma: `decodeEnvEntry` in terms of `envPairSpec`. -/
theorem decodeEnvEntry_eq (x : String) :
    Ops.decodeEnvEntry x =
      if 2 ≤ (Ops.splitEq x).length then some (envPairSpec x) else none := by
  unfold Ops.decodeEnvEntry envPairSpec
  rcases h : Ops.splitEq x with _ | ⟨a, _ | ⟨b, rest⟩⟩ <;> simp [h]

/-- The collected environment as a whole. -/
theorem collectOption_decodeEnv (envs : List String) :
    Ops.collectOption (envs.map Ops.decodeEnvEntry) =
      if envs.all (fun x => decide (2 ≤ (Ops.splitEq x).length))
      then some (envs.map envPairSpec) else none := by
  induction envs with
  | nil => simp [Ops.collectOption]
  | cons x rest ih =>
    by_cases hx : 2 ≤ (Ops.splitEq x).length
    · by_cases hr : rest.all (fun x => decide (2 ≤ (Ops.splitEq x).length))
      · simp [Ops.collectOption, decodeEnvEntry_eq, hx, ih, hr]
      · simp [Ops.collectOption, decodeEnvEntry_eq, hx, ih, hr]
    · simp [Ops.collectOption, decodeEnvEntry_eq, hx]

/-- C3 amended: the environment passed to the spawned command is the
list of pairs (segment before the first `=`, segment between the first
and the second `=`) of the entries, provided every entry contains an
`=`; if any entry contains no `=`, the decoded environment is empty. -/
theorem decodeEnvs_spec (envs : List String) :
    Ops.decodeEnvs (some envs) =
      if envs.all (fun x => decide (2 ≤ (Ops.splitEq x).length))
      then envs.map envPairSpec else [] := by
  show (Ops.collectOption (envs.map Ops.decodeEnvEntry)).getD [] = _
  rw [collectOption_decodeEnv]
  by_cases h : envs.all (fun x => decide (2 ≤ (Ops.splitEq x).length))
  · rw [if_pos h, if_pos h]; rfl
  · rw [if_neg h, if_neg h]; rfl

/-- Sample bundle path for exercising `create`. -/
def c7Bundle : RPath := { absolute := true, components := ["bundle"] }

/-- Sample root section declaring `readonly = Some(true)`. -/
def c7Root : Root :=
  { path := { absolute := false, components := ["rootfs"] },
    readonly := some true }

/-- Sample parsed `config.json` whose root carries `readonly`. -/
def c7Config : RuntimeConfig :=
  { ociVersion := "1.0", root := some c7Root, mounts := none,
    process := none, hooks := none, annotationEntries := none }

/-- C7 counterexample: for a config with `root.readonly = Some(true)`,
the value persisted by a successful `create` is not the parsed config
with only `root.path` replaced — `create` also resets `readonly` to
`None`. -/
theorem create_readonly_not_preserved :
    Ops.assocGet
        (Ops.create { containerConfig := [], containerProcesses := [] }
          "c1" c7Bundle (some c7Config) true true true).2.containerConfig
        "c1" ≠
      some { c7Config with
        root := some { path := c7Bundle.join c7Root.path,
                       readonly := some true } } := by
  decide

/-- C7 amended: after a successful `create(bundle)`, the config
persisted under `container_config` equals the parsed
`<bundle>/config.json` with `root` replaced by
`(path := <bundle>/<root.path>, readonly := None)`; every field other
than `root` is persisted unchanged. -/
theorem create_persists_overridden_config
    (st : Ops.KnastState) (key : String) (bundle : RPath)
    (config : RuntimeConfig) (root : Root) (m j n : Bool)
    (habsent : Ops.assocGet st.containerProcesses (Ops.processId key "") =
      none)
    (hroot : config.root = some root)
    (hok : (Ops.create st key bundle (some config) m j n).1 =
      Except.ok ()) :
    Ops.assocGet
        (Ops.create st key bundle (some config) m j n).2.containerConfig
        key =
      some { config with
        root := some { path := bundle.join root.path, readonly := none } } := by
  cases m <;> cases j <;> cases n <;>
    simp [Ops.create, habsent, hroot, assocGet_assocPut]

/-- C7 witness: the amended statement evaluated at the sample bundle. -/
theorem create_persists_overridden_config_witness :
    Ops.assocGet
        (Ops.create { containerConfig := [], containerProcesses := [] }
          "c1" c7Bundle (some c7Config) true true true).2.containerConfig
        "c1" =
      some { c7Config with
        root := some { path := c7Bundle.join c7Root.path,
                       readonly := none } } :=
  create_persists_overridden_config _ "c1" c7Bundle c7Config c7Root
    true true true (by decide) rfl rfl

/-- C9: `kill(signal)` on a process whose stored status is not
`Running` fails with the invalid-state error and leaves the
`container_processes` collection exactly as it was; in particular no
signal is delivered (the outcome is not `signalled`). -/
theorem doKill_not_running (store : Ops.ProcessStore) (key execId : String)
    (signal : Int) (jailExists killOk : Bool) (p : Ops.OciStatus)
    (hget : Ops.assocGet store (Ops.processId key execId) = some p)
    (hst : p.status ≠ Ops.ProcessStatus.Running) :
    Ops.doKill store key execId signal jailExists killOk =
      (Ops.KillOutcome.error
        ("Cannot kill " ++ p.status.asStr ++ " container."), store) := by
  simp [Ops.doKill, hget, hst]

/-- Sample stopped-process record for the C9 witness. -/
def c9Record : Ops.OciStatus :=
  { ociVersion := "1.0.2-dev-freebsd", status := Ops.ProcessStatus.Stopped,
    pid := 0, jid := 0, exitStatus := some 0, exitedAt := 5 }

/-- C9 witness: killing a stopped main process fails and changes
nothing. -/
theorem doKill_not_running_witness :
    Ops.doKill [("c/", c9Record)] "c" "" 10 true true =
      (Ops.KillOutcome.error "Cannot kill stopped container.",
        [("c/", c9Record)]) :=
  doKill_not_running [("c/", c9Record)] "c" "" 10 true true c9Record
    (by decide) (by decide)

/-- C4: a digest-addressed pull whose full body hashes to something
other than the hex portion of the requested digest fails with the
content-hash-mismatch error, and nothing is written to the `blobs`
collection: for layer, manifest and image-config pulls alike the
returned state is the input state (`put` happens only in the success
branch of the pull). -/
theorem digest_mismatch_fails_and_persists_nothing
    (sha256 : List Nat → List Nat) (hexEnc : List Nat → String)
    (transport : String → Except String (List (List Nat)))
    (decodeM : List Nat → Except String Fetch.Manifest)
    (decodeC : List Nat → Except String Fetch.ImageConfig)
    (st : Fetch.FetchState) (digest : String) (chunks : List (List Nat))
    (hnc : Ops.assocGet st.blobs digest = none)
    (htr : transport digest = Except.ok chunks)
    (hmm : String.mk (digest.data.drop 7) ≠
      hexEnc (sha256 (chunks.foldl (fun agg bytes => agg ++ bytes) []))) :
    Fetch.fetchLayer sha256 hexEnc transport st digest =
      (RustResult.err ("Failed to fetch layer " ++ digest ++ ": " ++
        "Content hash mismatch."), st, 1) ∧
    Fetch.fetchManifest sha256 hexEnc transport decodeM st digest =
      (RustResult.err ("Failed to fetch manifest " ++ digest ++ ": " ++
        "Content hash mismatch."), st, 1) ∧
    Fetch.fetchConfig sha256 hexEnc transport decodeC st digest =
      (RustResult.err ("Failed to fetch image config " ++ digest ++ ": " ++
        "Content hash mismatch."), st, 1) := by
  have hread : Fetch.readResponse sha256 hexEnc chunks (some digest) =
      RustResult.err "Content hash mismatch." := by
    simp [Fetch.readResponse, hmm]
  refine ⟨?_, ?_, ?_⟩ <;>
    simp [Fetch.fetchLayer, Fetch.fetchManifest, Fetch.fetchConfig,
      hnc, htr, hread]

/-- C4 witness: a pull of `sha256:ff` whose body hashes to `00`. -/
theorem digest_mismatch_witness :
    Fetch.fetchLayer (fun _ => []) (fun _ => "00")
        (fun _ => Except.ok [[1], [2]])
        { images := [], blobs := [] } "sha256:ff" =
      (RustResult.err ("Failed to fetch layer " ++ "sha256:ff" ++ ": " ++
        "Content hash mismatch."), { images := [], blobs := [] }, 1) :=
  (digest_mismatch_fails_and_persists_nothing (fun _ => [])
    (fun _ => "00") (fun _ => Except.ok [[1], [2]])
    (fun _ => Except.error "decode") (fun _ => Except.error "decode")
    { images := [], blobs := [] } "sha256:ff" [[1], [2]]
    rfl rfl (by decide)).1

/-- A cache hit in `images` makes `fetch` return the stored digest at
once: no pull is made and the state is unchanged. -/
theorem fetch_cache_hit (sha256 : List Nat → List Nat)
    (hexEnc : List Nat → String)
    (indexTransport : Except String Fetch.ManifestIndex)
    (transportM transportC transportL :
      String → Except String (List (List Nat)))
    (decodeM : List Nat → Except String Fetch.Manifest)
    (decodeC : List Nat → Except String Fetch.ImageConfig)
    (architecture : String) (os : List String)
    (st : Fetch.FetchState) (image tag : String) (d : String)
    (hd : Ops.assocGet st.images (Fetch.cacheKey image tag) = some d) :
    Fetch.fetch sha256 hexEnc indexTransport transportM transportC
      transportL decodeM decodeC architecture os st image tag =
      (RustResult.ok d, st, 0) := by
  simp [Fetch.fetch, hd]

/-- C5: a fetch whose cache key is present in `images` returns the
stored digest with no registry pulls and no change to the store; and a
successful fetch leaves the store in a state from which refetching the
same reference returns the same digest, again with no pulls and no
change — refetching a cached image is idempotent. -/
theorem fetch_cached_idempotent (sha256 : List Nat → List Nat)
    (hexEnc : List Nat → String)
    (indexTransport : Except String Fetch.ManifestIndex)
    (transportM transportC transportL :
      String → Except String (List (List Nat)))
    (decodeM : List Nat → Except String Fetch.Manifest)
    (decodeC : List Nat → Except String Fetch.ImageConfig)
    (architecture : String) (os : List String)
    (st : Fetch.FetchState) (image tag : String) :
    (∀ d, Ops.assocGet st.images (Fetch.cacheKey image tag) = some d →
      Fetch.fetch sha256 hexEnc indexTransport transportM transportC
        transportL decodeM decodeC architecture os st image tag =
        (RustResult.ok d, st, 0)) ∧
    (∀ d st' n,
      Fetch.fetch sha256 hexEnc indexTransport transportM transportC
        transportL decodeM decodeC architecture os st image tag =
        (RustResult.ok d, st', n) →
      Fetch.fetch sha256 hexEnc indexTransport transportM transportC
        transportL decodeM decodeC architecture os st' image tag =
        (RustResult.ok d, st', 0)) := by
  constructor
  · intro d hd
    exact fetch_cache_hit sha256 hexEnc indexTransport transportM transportC
      transportL decodeM decodeC architecture os st image tag d hd
  · intro d st' n h
    rcases hc : Ops.assocGet st.images (Fetch.cacheKey image tag) with _ | d0
    · simp only [Fetch.fetch, hc] at h
      split at h
      · simp at h
      · split at h
        · simp at h
        · split at h
          · simp at h
          · simp at h
          · split at h
            · simp at h
            · simp at h
            · split at h
              · simp at h
              · simp at h
              · simp only [Prod.mk.injEq, RustResult.ok.injEq] at h
                obtain ⟨rfl, rfl, rfl⟩ := h
                exact fetch_cache_hit _ _ _ _ _ _ _ _ _ _ _ _ _ _
                  (assocGet_assocPut _ _ _)
    · have heq := fetch_cache_hit sha256 hexEnc indexTransport transportM
        transportC transportL decodeM decodeC architecture os st image tag
        d0 hc
      rw [heq] at h
      simp only [Prod.mk.injEq, RustResult.ok.injEq] at h
      obtain ⟨rfl, rfl, rfl⟩ := h
      exact heq

/-- C5 witness: refetching `nginx:1.17.10` when the cache key
`library/nginx:1.17.10` is stored returns the stored digest with zero
pulls (all transports are dead) and the very same store. -/
theorem fetch_cached_witness :
    Fetch.fetch (fun _ => []) (fun _ => "") (Except.error "no network")
      (fun _ => Except.error "no network")
      (fun _ => Except.error "no network")
      (fun _ => Except.error "no network")
      (fun _ => Except.error "parse") (fun _ => Except.error "parse")
      "amd64" ["linux", "freebsd"]
      { images := [("library/nginx:1.17.10", "sha256:abc")], blobs := [] }
      "nginx" "1.17.10" =
      (RustResult.ok "sha256:abc",
        { images := [("library/nginx:1.17.10", "sha256:abc")],
          blobs := [] }, 0) :=
  (fetch_cached_idempotent _ _ _ _ _ _ _ _ _ _ _ _ _).1 "sha256:abc"
    (by decide)

/-- Lemma: `find?` returns exactly the first element satisfying the
predicate: success is equivalent to a decomposition of the list into a
prefix on which the predicate is false, the found element, and a
remainder. -/
theorem find?_eq_some_first {α : Type} (p : α → Bool) (a : α) :
    ∀ l : List α, l.find? p = some a ↔
      ∃ l1 l2, l = l1 ++ a :: l2 ∧ p a = true ∧ ∀ x ∈ l1, p x = false
  | [] => by simp
  | hd :: tl => by
    cases hp : p hd with
    | true =>
      rw [List.find?_cons_of_pos _ hp]
      constructor
      · intro he
        injection he with he
        subst he
        exact ⟨[], tl, rfl, hp, by simp⟩
      · rintro ⟨l1, l2, heq, hpa, hnone⟩
        cases l1 with
        | nil =>
          simp only [List.nil_append, List.cons.injEq] at heq
          rw [heq.1]
        | cons b bs =>
          simp only [List.cons_append, List.cons.injEq] at heq
          have hbf : p hd = false := heq.1 ▸ hnone b (by simp)
          rw [hp] at hbf
          cases hbf
    | false =>
      rw [List.find?_cons_of_neg _ (by simp [hp])]
      rw [find?_eq_some_first p a tl]
      constructor
      · rintro ⟨l1, l2, heq, hpa, hnone⟩
        refine ⟨hd :: l1, l2, by rw [heq]; rfl, hpa, ?_⟩
        intro x hx
        rcases List.mem_cons.mp hx with rfl | hx
        · exact hp
        · exact hnone x hx
      · rintro ⟨l1, l2, heq, hpa, hnone⟩
        cases l1 with
        | nil =>
          simp only [List.nil_append, List.cons.injEq] at heq
          rw [← heq.1] at hpa
          rw [hpa] at hp
          cases hp
        | cons b bs =>
          simp only [List.cons_append, List.cons.injEq] at heq
          exact ⟨bs, l2, heq.2, hpa,
            fun x hx => hnone x (List.mem_cons_of_mem _ hx)⟩

/-- The spec-side matching predicate of the manifest-selection
algorithm: the descriptor carries a platform whose architecture equals
the target and whose os belongs to the target os set (a descriptor
without a platform never matches). -/
def platformMatches (architecture : String) (os : List String)
    (m : Fetch.IndexEntry) : Prop :=
  ∃ p, m.platform = some p ∧ architecture = p.architecture ∧ p.os ∈ os

/-- The boolean predicate of the source `find` agrees with the
spec-side predicate. -/
theorem entryMatches_iff (architecture : String) (os : List String)
    (m : Fetch.IndexEntry) :
    Fetch.entryMatches architecture os m = true ↔
      platformMatches architecture os m := by
  unfold Fetch.entryMatches platformMatches
  cases hp : m.platform with
  | none => simp
  | some p =>
    simp [List.contains, List.elem_iff, Bool.and_eq_true, beq_iff_eq]

/-- C6: `resolve_manifest_digest` returns `Ok d` exactly when the
manifest list splits into a prefix of non-matching descriptors
followed by a matching one whose digest is `d` (first match in order
of appearance), and returns the no-matching-platform error exactly
when no descriptor matches. -/
theorem resolveManifestDigest_first_match (architecture : String)
    (os : List String) (manifests : List Fetch.IndexEntry) :
    (∀ d, Fetch.resolveManifestDigest architecture os manifests =
        Except.ok d ↔
      ∃ l1 m l2, manifests = l1 ++ m :: l2 ∧
        platformMatches architecture os m ∧ d = m.descriptor.digest ∧
        ∀ m' ∈ l1, ¬ platformMatches architecture os m') ∧
    (Fetch.resolveManifestDigest architecture os manifests =
        Except.error
          ("Could not find the appropriate manifest for: " ++
            architecture) ↔
      ∀ m ∈ manifests, ¬ platformMatches architecture os m) := by
  have hiff := entryMatches_iff architecture os
  constructor
  · intro d
    constructor
    · intro hok
      unfold Fetch.resolveManifestDigest at hok
      cases hf : manifests.find? (Fetch.entryMatches architecture os) with
      | none => rw [hf] at hok; simp at hok
      | some m =>
        rw [hf] at hok
        simp only [Except.ok.injEq] at hok
        obtain ⟨l1, l2, heq, hpa, hnone⟩ :=
          (find?_eq_some_first _ m manifests).mp hf
        refine ⟨l1, m, l2, heq, (hiff m).mp hpa, hok.symm, ?_⟩
        intro m' hm' hc
        have hf' := hnone m' hm'
        rw [(hiff m').mpr hc] at hf'
        cases hf'
    · rintro ⟨l1, m, l2, heq, hm, hd, hnone⟩
      have hf : manifests.find? (Fetch.entryMatches architecture os) =
          some m := by
        refine (find?_eq_some_first _ m manifests).mpr
          ⟨l1, l2, heq, (hiff m).mpr hm, ?_⟩
        intro x hx
        cases hpx : Fetch.entryMatches architecture os x with
        | false => rfl
        | true => exact absurd ((hiff x).mp hpx) (hnone x hx)
      unfold Fetch.resolveManifestDigest
      rw [hf, hd]
  · constructor
    · intro herr
      unfold Fetch.resolveManifestDigest at herr
      cases hf : manifests.find? (Fetch.entryMatches architecture os) with
      | some m => rw [hf] at herr; simp at herr
      | none =>
        intro m hm hc
        exact List.find?_eq_none.mp hf m hm ((hiff m).mpr hc)
    · intro hall
      have hf : manifests.find? (Fetch.entryMatches architecture os) =
          none :=
        List.find?_eq_none.mpr
          (fun x hx hc => hall x hx ((hiff x).mp hc))
      unfold Fetch.resolveManifestDigest
      rw [hf]

/-- Sample index entry without a platform. -/
def c6NoPlat : Fetch.IndexEntry :=
  { descriptor :=
      { mediaType := "mt", digest := "sha256:d1", size := 1, urls := none },
    platform := none }

/-- Sample amd64/linux index entry. -/
def c6Amd : Fetch.IndexEntry :=
  { descriptor :=
      { mediaType := "mt", digest := "sha256:d2", size := 2, urls := none },
    platform := some
      { architecture := "amd64", os := "linux", osVersion := none,
        osFeatures := none, variant := none } }

/-- C6 witness: with a platform-less entry first, resolution skips it
and returns the first matching entry's digest. -/
theorem resolveManifestDigest_witness :
    Fetch.resolveManifestDigest "amd64" ["linux", "freebsd"]
      [c6NoPlat, c6Amd] = Except.ok "sha256:d2" :=
  ((resolveManifestDigest_first_match "amd64" ["linux", "freebsd"]
      [c6NoPlat, c6Amd]).1 "sha256:d2").mpr
    ⟨[c6NoPlat], c6Amd, [], rfl, ⟨_, rfl, rfl, by decide⟩, rfl, by
      intro m' hm'
      simp only [List.mem_singleton] at hm'
      subst hm'
      rintro ⟨p, hp, -, -⟩
      cases hp⟩

/-- Lemma: `takeWhile`/`dropWhile` on a list made of a satisfying prefix and a
remainder whose head fails the predicate. -/
theorem takeWhile_all_append {α : Type} (p : α → Bool) (u s : List α)
    (hu : ∀ c ∈ u, p c = true)
    (hs : ∀ c, s.head? = some c → p c = false) :
    (u ++ s).takeWhile p = u ∧ (u ++ s).dropWhile p = s := by
  induction u with
  | nil =>
    cases s with
    | nil => simp
    | cons c cs =>
      have hc := hs c rfl
      simp [List.takeWhile_cons, List.dropWhile_cons, hc]
  | cons a u ih =>
    have ha : p a = true := hu a (by simp)
    have ih' := ih (fun c hcm => hu c (by simp [hcm]))
    simp [List.takeWhile_cons, List.dropWhile_cons, ha, ih'.1, ih'.2]

/-- Lemma: `alphanumeric1` on a nonempty digit token followed by a
non-alphanumeric remainder consumes exactly the token. -/
theorem alphanumeric1_digits (u s : List Char)
    (hu : ∀ c ∈ u, c.isDigit = true) (hne : u ≠ [])
    (hs : ∀ c, s.head? = some c → c.isAlphanum = false) :
    UserParse.alphanumeric1 (u ++ s) = some (s, u) := by
  have hu' : ∀ c ∈ u, c.isAlphanum = true := by
    intro c hc
    simp [Char.isAlphanum, hu c hc]
  obtain ⟨h1, h2⟩ := takeWhile_all_append Char.isAlphanum u s hu' hs
  unfold UserParse.alphanumeric1
  rw [h1, h2]
  cases u with
  | nil => exact absurd rfl hne
  | cons a u => simp

/-- C8: for every user string `<uid>:<gid>` whose two tokens are
nonempty decimal digit strings with values representable as `u32`,
`parse` returns exactly `(uid, gid)` for every rootfs: the `uid_gid`
alternative is tried first and succeeds without consulting
`/etc/passwd` or `/etc/group`, so the result does not depend on the
rootfs contents. -/
theorem parseUser_uid_gid (rootfs : UserParse.Rootfs) (u g : List Char)
    (hune : u ≠ []) (hu : ∀ c ∈ u, c.isDigit = true)
    (huval : UserParse.digitsVal u < 2 ^ 32)
    (hgne : g ≠ []) (hg : ∀ c ∈ g, c.isDigit = true)
    (hgval : UserParse.digitsVal g < 2 ^ 32) :
    UserParse.parseUser rootfs (String.mk (u ++ ':' :: g)) =
      Except.ok (UserParse.digitsVal u, UserParse.digitsVal g) := by
  have hfsu : UserParse.u32FromStr u = some (UserParse.digitsVal u) := by
    unfold UserParse.u32FromStr
    rw [if_pos ⟨hune, List.all_eq_true.mpr hu, huval⟩]
  have hfsg : UserParse.u32FromStr g = some (UserParse.digitsVal g) := by
    unfold UserParse.u32FromStr
    rw [if_pos ⟨hgne, List.all_eq_true.mpr hg, hgval⟩]
  have ha1 : UserParse.alphanumeric1 (u ++ ':' :: g) =
      some (':' :: g, u) := by
    refine alphanumeric1_digits u (':' :: g) hu hune ?_
    intro c hc
    simp only [List.head?_cons, Option.some.injEq] at hc
    subst hc
    decide
  have ha2 : UserParse.alphanumeric1 g = some ([], g) := by
    have h := alphanumeric1_digits g [] hg hgne (fun c hc => by simp at hc)
    simpa using h
  have hpair : UserParse.uidGidAlt (u ++ ':' :: g) =
      some ([], (UserParse.digitsVal u, UserParse.digitsVal g)) := by
    simp only [UserParse.uidGidAlt, UserParse.separatedPair,
      UserParse.identU32, UserParse.tagColon, ha1, hfsu, ha2, hfsg]
  have hdata : (String.mk (u ++ ':' :: g)).data = u ++ ':' :: g := rfl
  unfold UserParse.parseUser UserParse.userAlternatives
  rw [hdata, hpair]

/-- C8 witness: `1001:1002` resolves to `(1001, 1002)` on an empty
rootfs (no passwd or group entries at all). -/
theorem parseUser_uid_gid_witness :
    UserParse.parseUser { passwd := [], group := [] } "1001:1002" =
      Except.ok (1001, 1002) :=
  parseUser_uid_gid { passwd := [], group := [] }
    ['1', '0', '0', '1'] ['1', '0', '0', '2']
    (by decide) (by decide) (by decide)
    (by decide) (by decide) (by decide)

/-- Lemma: `take_while(≠ QUOTE)` splits a quote-free prefix from the quoted
remainder. -/
theorem takeUntilQuote_append (x y : List Char) (hx : '"' ∉ x) :
    Auth.takeUntilQuote (x ++ '"' :: y) = (x, '"' :: y) := by
  unfold Auth.takeUntilQuote
  have h := takeWhile_all_append (fun c => decide (c ≠ '"')) x ('"' :: y)
    (fun c hc => by simp; rintro rfl; exact hx hc)
    (fun c hc => by
      simp only [List.head?_cons, Option.some.injEq] at hc
      subst hc
      decide)
  rw [h.1, h.2]

/-- Lemma: `term` on junk-quote-value-quote input returns the quoted value
and the remainder after the closing quote. -/
theorem term_extract (x v y : List Char) (hx : '"' ∉ x) (hv : '"' ∉ v) :
    Auth.term (x ++ '"' :: (v ++ '"' :: y)) = some (y, v) := by
  unfold Auth.term
  rw [takeUntilQuote_append x (v ++ '"' :: y) hx]
  simp only []
  rw [takeUntilQuote_append v y hv]
  rfl

/-- C10: in the bearer-token acquisition, a HEAD response without a
`WWW-Authenticate` header panics (`unwrap` of a missing header) rather
than producing an auth-challenge error; and when the header is
present, `realm`, `service` and `scope` are taken positionally as the
first three double-quoted substrings, whatever the attribute names (or
any other text) around them are. -/
theorem authenticate_challenge_behaviour
    (a v1 b v2 c v3 d : List Char)
    (ha : '"' ∉ a) (hv1 : '"' ∉ v1) (hb : '"' ∉ b) (hv2 : '"' ∉ v2)
    (hc : '"' ∉ c) (hv3 : '"' ∉ v3) :
    Auth.authenticateChallenge none = RustResult.panicked ∧
    Auth.authenticateChallenge
        (some (a ++ '"' :: (v1 ++ '"' ::
          (b ++ '"' :: (v2 ++ '"' ::
            (c ++ '"' :: (v3 ++ '"' :: d))))))) =
      RustResult.ok { realm := v1, service := v2, scope := v3 } := by
  refine ⟨rfl, ?_⟩
  have h1 := term_extract a v1
    (b ++ '"' :: (v2 ++ '"' :: (c ++ '"' :: (v3 ++ '"' :: d)))) ha hv1
  have h2 := term_extract b v2 (c ++ '"' :: (v3 ++ '"' :: d)) hb hv2
  have h3 := term_extract c v3 d hc hv3
  simp only [Auth.authenticateChallenge, Auth.wwwAuthenticate, h1, h2, h3]

/-- C10 witness: the documented docker-style header parses into its
three quoted components; positional extraction ignores the attribute
names. -/
theorem authenticate_challenge_witness :
    Auth.authenticateChallenge
        (some ("Bearer realm=".data ++ '"' :: ("r".data ++ '"' ::
          (",service=".data ++ '"' :: ("s".data ++ '"' ::
            (",scope=".data ++ '"' :: ("p".data ++ '"' :: []))))))) =
      RustResult.ok
        { realm := "r".data, service := "s".data, scope := "p".data } :=
  (authenticate_challenge_behaviour "Bearer realm=".data "r".data
    ",service=".data "s".data ",scope=".data "p".data []
    (by decide) (by decide) (by decide) (by decide) (by decide)
    (by decide)).2

end Knast
